import Mathlib

/-
Verification of dnsthing.py (adrian-amaglio/dnsthing): a shallow embedding of
the registry/reconciliation engine in Lean 4, together with theorems checking
the natural-language specification against the code.

Modelling conventions:
- Python dicts (which are insertion-ordered) are modelled as association
  lists `List (String × α)`.  `d[k] = v` replaces the value in place when the
  key is present and appends otherwise; `del d[k]` removes the key;
  iteration follows list order, matching dict insertion order.
- Machine strings are Lean `String`s; `str.strip()` is `pyStrip` (leading and
  trailing whitespace removed), `'\n'.join(xs)` is `pyJoinNl`,
  `f.readlines()` is `pyReadlines`, `del lines[s:e+1]` is `pySliceDel`.
- Exceptions are modelled with `Except PyErr`: `KeyError` for `del d[k]` on a
  missing key, `AttributeError` for attribute access on the `{}` dict that
  `run()` substitutes when `client.containers.get` raises NotFound, and
  `OSError` for a failure of the locked read-modify-write in `update_hosts`.
- The I/O performed by `update_hosts` (file locking, reading, writing, and
  the optional onupdate callback) is modelled by passing the file contents in
  and returning the written contents plus an action trace out. Whether the
  locked read-modify-write succeeds is an environment parameter
  (`RenderOutcome`); the pure text transformation itself is total.
-/

/-- Lookup in a Python-dict-as-association-list: value at the first matching
key, mirroring that dict keys are unique. -/
def dictGet? {α : Type} : List (String × α) → String → Option α
  | [], _ => none
  | p :: rest, k => if p.1 = k then some p.2 else dictGet? rest k

/-- Python `k in d`: key membership. -/
def dictContains {α : Type} : List (String × α) → String → Bool
  | [], _ => false
  | p :: rest, k => if p.1 = k then true else dictContains rest k

/-- Python `d[k] = v`: replace in place when the key is present (position is
kept, as in an insertion-ordered dict), otherwise append at the end. -/
def dictInsert {α : Type} : List (String × α) → String → α → List (String × α)
  | [], k, v => [(k, v)]
  | p :: rest, k, v => if p.1 = k then (k, v) :: rest else p :: dictInsert rest k v

/-- Python `del d[k]` for a key that is present: remove the entry. (Call
sites in the embedding guard or surface the KeyError explicitly.) -/
def dictDelete {α : Type} : List (String × α) → String → List (String × α)
  | [], _ => []
  | p :: rest, k => if p.1 = k then dictDelete rest k else p :: dictDelete rest k

/-- A container descriptor as the code reads it off the docker client:
`container.name`, `container.id`, and
`container.attrs['NetworkSettings']['Networks']`.  `networks = none` models
the `'Networks'` key being absent from `NetworkSettings`; `some l`
models it present, listing (network name, `nw['IPAddress']`) pairs in dict
iteration order (an address may be the empty string, "not yet assigned"). -/
structure Container where
  name : String
  id : String
  networks : Option (List (String × String))
deriving DecidableEq, Repr

/-- The `this` dict that `hostRegistry.register` builds and stores in both
maps: `{'name': ..., 'id': ..., 'networks': {...}}`. -/
structure ContainerRecord where
  name : String
  id : String
  networks : List (String × String)
deriving DecidableEq, Repr

/-- The in-memory registry index: `self.byname` and `self.byid`, both
initialised to `{}` in `__init__`.  (The `client`, `hostsfile`, `domain` and
`onupdate` constructor arguments are configuration and are passed to the
operations explicitly.) -/
structure hostRegistry where
  byname : List (String × ContainerRecord)
  byid : List (String × ContainerRecord)
deriving DecidableEq, Repr

/-- The registry state right after `__init__`: both maps empty. -/
def emptyRegistry : hostRegistry := ⟨[], []⟩

/-- The name normalisation at the top of `register` and `unregister`:
`if name.startswith('/'): name = name[1:]` — drop the first character when it
is a slash. -/
def stripLeadingSlash (name : String) : String :=
  match name.data with
  | [] => name
  | ch :: rest => if ch = '/' then String.mk rest else name

/-- Python exceptions that the embedded code can raise. -/
inductive PyErr where
  | KeyError : String → PyErr
  | AttributeError : String → PyErr
  | OSError : PyErr
deriving DecidableEq, Repr

/-- The `this` record stored by `register` when `Networks` is `some nws`:
derived name, container id, and the addressed networks only. -/
def regRecord (c : Container) (nws : List (String × String)) : ContainerRecord :=
  ⟨stripLeadingSlash c.name, c.id, nws.filter (fun nw => nw.2 != "")⟩

/-- The `register` method: no-op when the derived name is already in
`byname` (duplicate name), when `NetworkSettings` has no `'Networks'` key, or
when every attached network has an empty `IPAddress`; otherwise store the
record (with the empty-address networks filtered out) in both maps. -/
def hostRegistry.register (r : hostRegistry) (c : Container) : hostRegistry :=
  if dictContains r.byname (stripLeadingSlash c.name) then r
  else
    match c.networks with
    | none => r
    | some nws =>
        if nws.filter (fun nw => nw.2 != "") = [] then r
        else
          ⟨dictInsert r.byname (stripLeadingSlash c.name) (regRecord c nws),
           dictInsert r.byid c.id (regRecord c nws)⟩

/-- `hostRegistry.unregister`: when `container.id in self.byid`, the code runs
`del self.byid[container.id]` and then `del self.byname[name]` with the name
derived from the *passed* container; the second delete raises `KeyError` when
that name is not a `byname` key.  When the id is absent, nothing happens.
(On the KeyError path the process's event loop dies, so the partially
mutated in-memory state is never observed; the error value models the
propagating exception.) -/
def hostRegistry.unregister (r : hostRegistry) (c : Container) : Except PyErr hostRegistry :=
  if dictContains r.byid c.id then
    if dictContains r.byname (stripLeadingSlash c.name) then
      Except.ok ⟨dictDelete r.byname (stripLeadingSlash c.name), dictDelete r.byid c.id⟩
    else Except.error (PyErr.KeyError (stripLeadingSlash c.name))
  else Except.ok r

/-- The marker line opening the managed section. -/
def _hostfile_start_marker : String := "# === start dnsthing ==="

/-- The marker line closing the managed section. -/
def _hostfile_end_marker : String := "# === end dnsthing ==="

/-- Python `str.strip()`: drop leading and trailing whitespace. (Modelled
with `Char.isWhitespace`, which covers space, tab, CR and LF.) -/
def pyStrip (s : String) : String :=
  String.mk (((s.data.dropWhile Char.isWhitespace).reverse.dropWhile Char.isWhitespace).reverse)

/-- Python `str.rstrip()`: drop trailing whitespace only.  Used to state the
spec's "trailing-whitespace normalization" claims. -/
def pyRstrip (s : String) : String :=
  String.mk ((s.data.reverse.dropWhile Char.isWhitespace).reverse)

/-- Split a character stream at newline characters (the pieces do not keep
the separator); the spine of `pyReadlines`. -/
def splitNl : List Char → List (List Char)
  | [] => [[]]
  | ch :: rest =>
      if ch = '\n' then [] :: splitNl rest
      else
        match splitNl rest with
        | [] => [[ch]]
        | piece :: pieces => (ch :: piece) :: pieces

/-- Python `f.readlines()`: every line keeps its trailing newline; a final
piece without a newline is kept only when non-empty (an empty file yields no
lines). -/
def pyReadlines (content : String) : List String :=
  let pieces := (splitNl content.data).map String.mk
  (pieces.dropLast.map (fun p => p ++ "\n")) ++
    (match pieces.getLast? with
     | some last => if last = "" then [] else [last]
     | none => [])

/-- Python `'\n'.join(lines)`: separator between elements only, so no
trailing newline. -/
def pyJoinNl : List String → String
  | [] => ""
  | [x] => x
  | x :: y :: rest => x ++ "\n" ++ pyJoinNl (y :: rest)

/-- Python `del lines[s:stop]`: removes the indices in `[s, stop)`; an empty
slice (when `stop ≤ s`) removes nothing. -/
def pySliceDel (l : List String) (s stop : Nat) : List String :=
  if s < stop then l.take s ++ l.drop stop else l

/-- `lines.index(_hostfile_start_marker)` as an option (Python raises
ValueError when absent; the code catches it). -/
def startIdx? (lines : List String) : Option Nat :=
  List.findIdx? (fun l => l = _hostfile_start_marker) lines

/-- `lines.index(_hostfile_end_marker)` as an option. -/
def endIdx? (lines : List String) : Option Nat :=
  List.findIdx? (fun l => l = _hostfile_end_marker) lines

/-- The `new_section` list comprehension in `update_hosts` (without the
surrounding markers): one line `'%s %s.%s.%s' % (address, name, nwname,
domain)` per network of each `byname` entry, in dict iteration order. -/
def hostLines (r : hostRegistry) (domain : String) : List String :=
  List.flatten (r.byname.map (fun p =>
    p.2.networks.map (fun nw => nw.2 ++ " " ++ p.1 ++ "." ++ nw.1 ++ "." ++ domain)))

/-- The pure text transformation of `update_hosts`, on the list of lines read
from the file: strip every line, delete the slice from the first start marker
to the first end marker when both `index` calls succeed (the ValueError from
a missing marker is caught and leaves the lines untouched), then append the
regenerated section. -/
def update_hosts_lines (r : hostRegistry) (domain : String) (rawLines : List String) :
    List String :=
  match startIdx? (rawLines.map pyStrip), endIdx? (rawLines.map pyStrip) with
  | some s, some e =>
      pySliceDel (rawLines.map pyStrip) s (e + 1)
        ++ ([_hostfile_start_marker] ++ hostLines r domain ++ [_hostfile_end_marker])
  | _, _ =>
      rawLines.map pyStrip
        ++ ([_hostfile_start_marker] ++ hostLines r domain ++ [_hostfile_end_marker])

/-- `update_hosts` at the file level: what `f.write('\n'.join(new_hostsfile))`
stores after `f.seek(0); f.truncate()`, as a function of the previous file
contents. -/
def update_hosts_write (r : hostRegistry) (domain : String) (content : String) : String :=
  pyJoinNl (update_hosts_lines r domain (pyReadlines content))

/-- An event from `client.events(decode=True)`, restricted to the keys the
code reads: `event['Type']`, `event['Action']`, `event['id']`. -/
structure DockerEvent where
  type : String
  action : String
  id : String
deriving DecidableEq, Repr

/-- Outcome of `self.client.containers.get(event['id'])` in `run()`. -/
inductive InspectResult where
  | found : Container → InspectResult
  | notFound : InspectResult
deriving DecidableEq, Repr

/-- The value bound to `container` in `run()`: a real container object, or
the bare `{}` dict substituted when the get raised `docker.errors.NotFound`. -/
inductive ContainerVal where
  | obj : Container → ContainerVal
  | emptyDict : ContainerVal
deriving DecidableEq, Repr

/-- The `try/except docker.errors.NotFound` around the inspect in `run()`. -/
def containerValOf : InspectResult → ContainerVal
  | .found c => .obj c
  | .notFound => .emptyDict

/-- `register` as invoked from the event loop: `container.name` on the `{}`
dict raises AttributeError before anything else happens. -/
def registerVal (r : hostRegistry) : ContainerVal → Except PyErr hostRegistry
  | .obj c => Except.ok (r.register c)
  | .emptyDict => Except.error (PyErr.AttributeError "name")

/-- `unregister` as invoked from the event loop; same AttributeError on the
`{}` dict. -/
def unregisterVal (r : hostRegistry) : ContainerVal → Except PyErr hostRegistry
  | .obj c => r.unregister c
  | .emptyDict => Except.error (PyErr.AttributeError "name")

/-- Environment outcome of the locked read-modify-write in `update_hosts`:
either the lock/read/write all succeed with the given prior file contents, or
some step of it raises. -/
inductive RenderOutcome where
  | readOk : String → RenderOutcome
  | raised : RenderOutcome
deriving DecidableEq, Repr

/-- Externally visible actions of one `update_hosts` call, in order. -/
inductive RenderAction where
  | renderWrite : String → RenderAction
  | onupdateRun : RenderAction
deriving DecidableEq, Repr

/-- One `update_hosts()` call: on success the new file contents are written
and then, when configured, `self.onupdate()` runs; when the locked
read-modify-write raises, nothing is written, `onupdate` is *not* reached,
and the exception propagates (second component). -/
def update_hostsRun (r : hostRegistry) (domain : String) (hasOnupdate : Bool)
    (io : RenderOutcome) : List RenderAction × Option PyErr :=
  match io with
  | .readOk content =>
      (RenderAction.renderWrite (update_hosts_write r domain content) ::
         (if hasOnupdate then [RenderAction.onupdateRun] else []), none)
  | .raised => ([], some PyErr.OSError)

/-- `handle_start(event, container)`: `self.register(container)` then
`self.update_hosts()`.  Returns the registry after the handler, the action
trace, and the exception that escaped, if any. -/
def handle_startRun (r : hostRegistry) (cv : ContainerVal) (domain : String)
    (hasOnupdate : Bool) (io : RenderOutcome) :
    hostRegistry × List RenderAction × Option PyErr :=
  match registerVal r cv with
  | Except.error e => (r, [], some e)
  | Except.ok r1 =>
      let res := update_hostsRun r1 domain hasOnupdate io
      (r1, res.1, res.2)

/-- `handle_die(event, container)`: `self.unregister(container)` then
`self.update_hosts()`. -/
def handle_dieRun (r : hostRegistry) (cv : ContainerVal) (domain : String)
    (hasOnupdate : Bool) (io : RenderOutcome) :
    hostRegistry × List RenderAction × Option PyErr :=
  match unregisterVal r cv with
  | Except.error e => (r, [], some e)
  | Except.ok r1 =>
      let res := update_hostsRun r1 domain hasOnupdate io
      (r1, res.1, res.2)

/-- One iteration of the `for event in self.client.events(...)` loop body:
skip non-container events, substitute `{}` for an uninspectable container,
then dispatch through `getattr(self, 'handle_%s' % event['Action'], None)` —
only `start` and `die` have handlers.  A `some` error means the exception
escapes `run()` (there is no try/except around the handler call). -/
def processEvent (r : hostRegistry) (ev : DockerEvent) (insp : InspectResult)
    (domain : String) (hasOnupdate : Bool) (io : RenderOutcome) :
    hostRegistry × List RenderAction × Option PyErr :=
  if ev.type ≠ "container" then (r, [], none)
  else
    if ev.action = "start" then handle_startRun r (containerValOf insp) domain hasOnupdate io
    else if ev.action = "die" then handle_dieRun r (containerValOf insp) domain hasOnupdate io
    else (r, [], none)

/-- Number of completed file writes in an action trace. -/
def renderCount (acts : List RenderAction) : Nat :=
  acts.countP (fun a => match a with | .renderWrite _ => true | _ => false)

/-- Number of onupdate invocations in an action trace. -/
def onupdateCount (acts : List RenderAction) : Nat :=
  acts.countP (fun a => match a with | .onupdateRun => true | _ => false)

/-- The lock-step property claimed of the two maps: every `byId` record is in
`byName` under the record's own name with identical content, and vice versa
through the record's id. -/
def byMapsLockStep (r : hostRegistry) : Prop :=
  (∀ i rec, dictGet? r.byid i = some rec → dictGet? r.byname rec.name = some rec) ∧
  (∀ n rec, dictGet? r.byname n = some rec → dictGet? r.byid rec.id = some rec)

/-- A container argument is name-consistent with the registry when, if its id
is registered, its derived name agrees with the stored record's name (docker
guarantees this as long as containers are not renamed while running). -/
def nameConsistent (r : hostRegistry) (c : Container) : Prop :=
  ∀ rec, dictGet? r.byid c.id = some rec → stripLeadingSlash c.name = rec.name

/-- Internal strengthening of the lock-step property: keys also agree with
the record fields. -/
def registryInv (r : hostRegistry) : Prop :=
  (∀ i rec, dictGet? r.byid i = some rec →
    rec.id = i ∧ dictGet? r.byname rec.name = some rec) ∧
  (∀ n rec, dictGet? r.byname n = some rec →
    rec.name = n ∧ dictGet? r.byid rec.id = some rec)

/-- Registry states reachable from the empty registry by finite sequences of
`register` and (successful) `unregister` calls whose container arguments are
name-consistent at the point of application. -/
inductive ConsistentReach : hostRegistry → Prop where
  | base : ConsistentReach emptyRegistry
  | reg {r : hostRegistry} {c : Container} :
      ConsistentReach r → nameConsistent r c → ConsistentReach (r.register c)
  | unreg {r r' : hostRegistry} {c : Container} :
      ConsistentReach r → nameConsistent r c → r.unregister c = Except.ok r' →
      ConsistentReach r'

/-- Predicate of `register`'s exclusions: the `Networks` key is absent, or
every attached network has an empty address (which subsumes the empty map). -/
def noAddressedNetworks (c : Container) : Bool :=
  match c.networks with
  | none => true
  | some nws => decide (nws.filter (fun nw => nw.2 != "") = [])

/-- Every record stored in either map has at least one addressed network. -/
def recordsAddressed (r : hostRegistry) : Prop :=
  (∀ i rec, dictGet? r.byid i = some rec → rec.networks ≠ []) ∧
  (∀ n rec, dictGet? r.byname n = some rec → rec.networks ≠ [])

/-- A registry operation: one `register` or `unregister` call. -/
inductive RegistryOp where
  | reg : Container → RegistryOp
  | unreg : Container → RegistryOp
deriving DecidableEq, Repr

/-- Apply one operation. -/
def applyOp (r : hostRegistry) : RegistryOp → Except PyErr hostRegistry
  | .reg c => Except.ok (r.register c)
  | .unreg c => r.unregister c

/-- Apply a finite sequence of operations, stopping at the first exception. -/
def applyOps (r : hostRegistry) : List RegistryOp → Except PyErr hostRegistry
  | [] => Except.ok r
  | op :: rest =>
      match applyOp r op with
      | Except.ok r1 => applyOps r1 rest
      | Except.error e => Except.error e

/-- Concrete container: `web`, id `c1`, one addressed network. -/
def cWeb : Container := ⟨"web", "c1", some [("app", "10.0.0.2")]⟩

/-- The record `register` stores for `cWeb`. -/
def recWeb : ContainerRecord := ⟨"web", "c1", [("app", "10.0.0.2")]⟩

/-- Concrete container: `db`, id `c2`, one addressed network. -/
def cDb : Container := ⟨"db", "c2", some [("app", "10.0.0.3")]⟩

/-- Container with id `c1` but renamed to `db` (as a die event would see it
after a rename): its id is registered under the name `web`. -/
def cWebRenamedDb : Container := ⟨"db", "c1", some [("app", "10.0.0.2")]⟩

/-- Container with id `c1` renamed to a never-registered name. -/
def cWebRenamedFresh : Container := ⟨"fresh", "c1", some [("app", "10.0.0.2")]⟩

/-- The record `register` stores for `cDb`. -/
def recDb : ContainerRecord := ⟨"db", "c2", [("app", "10.0.0.3")]⟩

/-- Registry holding `cWeb` and `cDb`, then hit by `unregister cWebRenamedDb`:
`byid` loses `c1`, `byname` loses `db` — the maps disagree afterwards. -/
def brokenRegistry : hostRegistry := ⟨[("web", recWeb)], [("c2", recDb)]⟩

/-- Registry after registering cWeb into the empty registry. -/
def regWeb : hostRegistry := hostRegistry.register emptyRegistry cWeb

/-- A second container claiming the name web (with the leading slash the
runtime reports in list output). -/
def cWebDup : Container := ⟨"/web", "c9", some [("app", "10.0.0.9")]⟩

/-- A container attached to one network that has no address assigned yet. -/
def cNoNet : Container := ⟨"quiet", "c3", some [("app", "")]⟩

/-- Raw lines of a hosts file with a managed section surrounded by content. -/
def sampleSectionRaw : List String :=
  pyReadlines ("keep\n" ++ _hostfile_start_marker ++ "\nold entry\n"
    ++ _hostfile_end_marker ++ "\ntail")

/-- Raw lines of a hosts file containing only a start marker. -/
def sampleStartOnlyRaw : List String :=
  pyReadlines ("orphan\n" ++ _hostfile_start_marker)

/-- Raw lines of a hosts file whose managed section is followed by content. -/
def sampleTailRaw : List String :=
  pyReadlines (_hostfile_start_marker ++ "\n" ++ _hostfile_end_marker ++ "\nepilogue")

/-- Lookup after insertion at the inserted key. -/
theorem dictGet?_insert_self {α : Type} (d : List (String × α)) (k : String) (v : α) :
    dictGet? (dictInsert d k v) k = some v := by
  induction d with
  | nil => simp [dictInsert, dictGet?]
  | cons p rest ih =>
      by_cases h : p.1 = k
      · simp [dictInsert, dictGet?, h]
      · simp [dictInsert, dictGet?, h, ih]

/-- Lookup after insertion at a different key. -/
theorem dictGet?_insert_ne {α : Type} (d : List (String × α)) (k k' : String) (v : α)
    (h : k' ≠ k) : dictGet? (dictInsert d k v) k' = dictGet? d k' := by
  have hne : k ≠ k' := Ne.symm h
  induction d with
  | nil => simp [dictInsert, dictGet?, hne]
  | cons p rest ih =>
      by_cases hp : p.1 = k
      · simp [dictInsert, dictGet?, hp, hne]
      · simp [dictInsert, dictGet?, hp, hne, ih]

/-- Any lookup result after an insertion is the inserted value or an old one. -/
theorem dictGet?_insert_elim {α : Type} (d : List (String × α)) (k k' : String) (v w : α)
    (h : dictGet? (dictInsert d k v) k' = some w) : w = v ∨ dictGet? d k' = some w := by
  by_cases hk : k' = k
  · subst hk
    rw [dictGet?_insert_self] at h
    exact Or.inl (Option.some.inj h).symm
  · rw [dictGet?_insert_ne d k k' v hk] at h
    exact Or.inr h

/-- Lookup after deletion at the deleted key. -/
theorem dictGet?_delete_self {α : Type} (d : List (String × α)) (k : String) :
    dictGet? (dictDelete d k) k = none := by
  induction d with
  | nil => simp [dictDelete, dictGet?]
  | cons p rest ih =>
      by_cases h : p.1 = k
      · simp [dictDelete, h, ih]
      · simp [dictDelete, dictGet?, h, ih]

/-- Lookup after deletion at a different key. -/
theorem dictGet?_delete_ne {α : Type} (d : List (String × α)) (k k' : String)
    (h : k' ≠ k) : dictGet? (dictDelete d k) k' = dictGet? d k' := by
  have hne : k ≠ k' := Ne.symm h
  induction d with
  | nil => simp [dictDelete]
  | cons p rest ih =>
      by_cases hp : p.1 = k
      · simp [dictDelete, dictGet?, hp, hne, ih]
      · simp [dictDelete, dictGet?, hp, hne, ih]

/-- Any lookup that succeeds after a deletion already succeeded before it. -/
theorem dictGet?_delete_elim {α : Type} (d : List (String × α)) (k k' : String) (w : α)
    (h : dictGet? (dictDelete d k) k' = some w) : dictGet? d k' = some w := by
  by_cases hk : k' = k
  · subst hk
    rw [dictGet?_delete_self] at h
    exact absurd h (by simp)
  · rwa [dictGet?_delete_ne d k k' hk] at h

/-- Membership agrees with lookup. -/
theorem dictContains_eq_isSome {α : Type} (d : List (String × α)) (k : String) :
    dictContains d k = (dictGet? d k).isSome := by
  induction d with
  | nil => simp [dictContains, dictGet?]
  | cons p rest ih =>
      by_cases h : p.1 = k
      · simp [dictContains, dictGet?, h]
      · simp [dictContains, dictGet?, h, ih]

/-- A successful lookup witnesses membership. -/
theorem dictContains_of_get? {α : Type} (d : List (String × α)) (k : String) (v : α)
    (h : dictGet? d k = some v) : dictContains d k = true := by
  rw [dictContains_eq_isSome, h]
  rfl

/-- A failed membership test forces a failed lookup. -/
theorem dictGet?_eq_none_of_not_contains {α : Type} (d : List (String × α)) (k : String)
    (h : ¬ dictContains d k = true) : dictGet? d k = none := by
  rw [dictContains_eq_isSome] at h
  cases hg : dictGet? d k with
  | none => rfl
  | some v => rw [hg] at h; exact absurd rfl h

/-- The key just inserted is a member. -/
theorem dictContains_insert_self {α : Type} (d : List (String × α)) (k : String) (v : α) :
    dictContains (dictInsert d k v) k = true := by
  rw [dictContains_eq_isSome, dictGet?_insert_self]
  rfl

/-- The strengthened invariant holds right after `__init__`. -/
theorem registryInv_empty : registryInv emptyRegistry := by
  constructor
  · intro i rec h
    simp [emptyRegistry, dictGet?] at h
  · intro n rec h
    simp [emptyRegistry, dictGet?] at h

/-- `register` preserves the strengthened invariant for a name-consistent
container argument. -/
theorem registryInv_register (r : hostRegistry) (c : Container)
    (hInv : registryInv r) (hc : nameConsistent r c) : registryInv (r.register c) := by
  by_cases h1 : dictContains r.byname (stripLeadingSlash c.name) = true
  · simpa [hostRegistry.register, h1] using hInv
  · cases hn : c.networks with
    | none => simpa [hostRegistry.register, h1, hn] using hInv
    | some nws =>
        by_cases h2 : nws.filter (fun nw => nw.2 != "") = []
        · simpa [hostRegistry.register, h1, hn, h2] using hInv
        · have hreg : r.register c =
              ⟨dictInsert r.byname (stripLeadingSlash c.name) (regRecord c nws),
               dictInsert r.byid c.id (regRecord c nws)⟩ := by
            simp [hostRegistry.register, h1, hn, h2]
          have hid : dictGet? r.byid c.id = none := by
            cases hg : dictGet? r.byid c.id with
            | none => rfl
            | some rec0 =>
                have hnm := hc rec0 hg
                have hby := (hInv.1 c.id rec0 hg).2
                rw [← hnm] at hby
                exact absurd (dictContains_of_get? _ _ _ hby) h1
          have hbyn : dictGet? r.byname (stripLeadingSlash c.name) = none :=
            dictGet?_eq_none_of_not_contains _ _ h1
          rw [hreg]
          constructor
          · intro i rec hget
            by_cases hik : i = c.id
            · subst hik
              rw [dictGet?_insert_self] at hget
              obtain rfl : regRecord c nws = rec := Option.some.inj hget
              exact ⟨rfl, by simp [regRecord, dictGet?_insert_self]⟩
            · rw [dictGet?_insert_ne _ _ _ _ hik] at hget
              obtain ⟨hrid, hrby⟩ := hInv.1 i rec hget
              refine ⟨hrid, ?_⟩
              have hname_ne : rec.name ≠ stripLeadingSlash c.name := by
                intro he
                rw [he] at hrby
                rw [hbyn] at hrby
                cases hrby
              rw [dictGet?_insert_ne _ _ _ _ hname_ne]
              exact hrby
          · intro n rec hget
            by_cases hnk : n = stripLeadingSlash c.name
            · subst hnk
              rw [dictGet?_insert_self] at hget
              obtain rfl : regRecord c nws = rec := Option.some.inj hget
              exact ⟨rfl, by simp [regRecord, dictGet?_insert_self]⟩
            · rw [dictGet?_insert_ne _ _ _ _ hnk] at hget
              obtain ⟨hrn, hrby⟩ := hInv.2 n rec hget
              refine ⟨hrn, ?_⟩
              have hid_ne : rec.id ≠ c.id := by
                intro he
                rw [he] at hrby
                rw [hid] at hrby
                cases hrby
              rw [dictGet?_insert_ne _ _ _ _ hid_ne]
              exact hrby

/-- A successful `unregister` preserves the strengthened invariant for a
name-consistent container argument. -/
theorem registryInv_unregister (r r' : hostRegistry) (c : Container)
    (hInv : registryInv r) (hc : nameConsistent r c)
    (h : r.unregister c = Except.ok r') : registryInv r' := by
  by_cases h1 : dictContains r.byid c.id = true
  · have h1s : (dictGet? r.byid c.id).isSome = true := by
      rw [← dictContains_eq_isSome]; exact h1
    obtain ⟨rec0, hrec0⟩ := Option.isSome_iff_exists.mp h1s
    have hnm := hc rec0 hrec0
    have hid0 := (hInv.1 c.id rec0 hrec0).1
    have hby0 := (hInv.1 c.id rec0 hrec0).2
    have h2 : dictContains r.byname (stripLeadingSlash c.name) = true := by
      rw [hnm]; exact dictContains_of_get? _ _ _ hby0
    have hr' : r' = ⟨dictDelete r.byname (stripLeadingSlash c.name),
                     dictDelete r.byid c.id⟩ := by
      simp only [hostRegistry.unregister, h1, h2, if_true] at h
      exact (Except.ok.inj h).symm
    subst hr'
    constructor
    · intro i rec hget
      have hget' := dictGet?_delete_elim _ _ _ _ hget
      have hine : i ≠ c.id := by
        intro he
        subst he
        rw [dictGet?_delete_self] at hget
        cases hget
      obtain ⟨hrid, hrby⟩ := hInv.1 i rec hget'
      refine ⟨hrid, ?_⟩
      have hname_ne : rec.name ≠ stripLeadingSlash c.name := by
        intro he
        rw [he, hnm] at hrby
        have hrr : rec = rec0 := Option.some.inj (hrby.symm.trans hby0)
        apply hine
        rw [← hrid, hrr, hid0]
      rw [dictGet?_delete_ne _ _ _ hname_ne]
      exact hrby
    · intro n rec hget
      have hget' := dictGet?_delete_elim _ _ _ _ hget
      have hnne : n ≠ stripLeadingSlash c.name := by
        intro he
        subst he
        rw [dictGet?_delete_self] at hget
        cases hget
      obtain ⟨hrn, hrby⟩ := hInv.2 n rec hget'
      refine ⟨hrn, ?_⟩
      have hid_ne : rec.id ≠ c.id := by
        intro he
        rw [he] at hrby
        have hrr : rec = rec0 := Option.some.inj (hrby.symm.trans hrec0)
        apply hnne
        rw [← hrn, hrr, ← hnm]
      rw [dictGet?_delete_ne _ _ _ hid_ne]
      exact hrby
  · have hr' : r' = r := by
      simp only [hostRegistry.unregister, h1, if_false] at h
      exact (Except.ok.inj h).symm
    subst hr'
    exact hInv

/-- Every name-consistently reachable registry satisfies the strengthened
invariant. -/
theorem registryInv_of_consistentReach (r : hostRegistry) (h : ConsistentReach r) :
    registryInv r := by
  induction h with
  | base => exact registryInv_empty
  | reg hr hc ih => exact registryInv_register _ _ ih hc
  | unreg hr hc hok ih => exact registryInv_unregister _ _ _ ih hc hok

/-- Rendering when both markers are found with the start at or before the
end: the inclusive index range from the first start marker through the first
end marker is deleted from the stripped lines, and the fresh section is
appended after what remains. -/
theorem update_hosts_lines_found (r : hostRegistry) (domain : String)
    (rawLines : List String) (s e : Nat)
    (hs : startIdx? (rawLines.map pyStrip) = some s)
    (he : endIdx? (rawLines.map pyStrip) = some e) (hle : s ≤ e) :
    update_hosts_lines r domain rawLines =
      ((rawLines.map pyStrip).take s ++ (rawLines.map pyStrip).drop (e + 1))
        ++ ([_hostfile_start_marker] ++ hostLines r domain ++ [_hostfile_end_marker]) := by
  unfold update_hosts_lines
  rw [hs, he]
  simp [pySliceDel, Nat.lt_succ_of_le hle]

/-- Empty registry: both maps hold only records with addressed networks,
vacuously. -/
theorem recordsAddressed_empty : recordsAddressed emptyRegistry := by
  constructor
  · intro i rec hg
    simp [emptyRegistry, dictGet?] at hg
  · intro n rec hg
    simp [emptyRegistry, dictGet?] at hg

/-- `register` never stores a record with an empty network map. -/
theorem recordsAddressed_register (r : hostRegistry) (c : Container)
    (h : recordsAddressed r) : recordsAddressed (r.register c) := by
  by_cases h1 : dictContains r.byname (stripLeadingSlash c.name) = true
  · simpa [hostRegistry.register, h1] using h
  · cases hn : c.networks with
    | none => simpa [hostRegistry.register, h1, hn] using h
    | some nws =>
        by_cases h2 : nws.filter (fun nw => nw.2 != "") = []
        · simpa [hostRegistry.register, h1, hn, h2] using h
        · have hreg : r.register c =
              ⟨dictInsert r.byname (stripLeadingSlash c.name) (regRecord c nws),
               dictInsert r.byid c.id (regRecord c nws)⟩ := by
            simp [hostRegistry.register, h1, hn, h2]
          rw [hreg]
          constructor
          · intro i rec hget
            rcases dictGet?_insert_elim _ _ _ _ _ hget with hrec | hold
            · rw [hrec]
              simpa [regRecord] using h2
            · exact h.1 i rec hold
          · intro n rec hget
            rcases dictGet?_insert_elim _ _ _ _ _ hget with hrec | hold
            · rw [hrec]
              simpa [regRecord] using h2
            · exact h.2 n rec hold

/-- A successful `unregister` only removes entries, so it keeps every stored
record addressed. -/
theorem recordsAddressed_unregister (r r' : hostRegistry) (c : Container)
    (h : r.unregister c = Except.ok r') (hra : recordsAddressed r) :
    recordsAddressed r' := by
  by_cases h1 : dictContains r.byid c.id = true
  · by_cases h2 : dictContains r.byname (stripLeadingSlash c.name) = true
    · have hr' : r' = ⟨dictDelete r.byname (stripLeadingSlash c.name),
                       dictDelete r.byid c.id⟩ := by
        simp only [hostRegistry.unregister, h1, h2, if_true] at h
        exact (Except.ok.inj h).symm
      subst hr'
      exact ⟨fun i rec hg => hra.1 i rec (dictGet?_delete_elim _ _ _ _ hg),
             fun n rec hg => hra.2 n rec (dictGet?_delete_elim _ _ _ _ hg)⟩
    · simp only [hostRegistry.unregister, h1, h2, if_true, if_false] at h
      exact absurd h (by simp)
  · have hr' : r' = r := by
      simp only [hostRegistry.unregister, h1, if_false] at h
      exact (Except.ok.inj h).symm
    subst hr'
    exact hra

/-- Folding a successful operation sequence preserves addressed records. -/
theorem recordsAddressed_applyOps : ∀ (ops : List RegistryOp) (r0 r : hostRegistry),
    recordsAddressed r0 → applyOps r0 ops = Except.ok r → recordsAddressed r := by
  intro ops
  induction ops with
  | nil =>
      intro r0 r h0 h
      simp only [applyOps] at h
      rw [← Except.ok.inj h]
      exact h0
  | cons op rest ih =>
      intro r0 r h0 h
      cases op with
      | reg c =>
          simp only [applyOps, applyOp] at h
          exact ih _ _ (recordsAddressed_register _ _ h0) h
      | unreg c =>
          simp only [applyOps, applyOp] at h
          cases hc : hostRegistry.unregister r0 c with
          | ok r1 =>
              rw [hc] at h
              exact ih _ _ (recordsAddressed_unregister _ _ _ hc h0) h
          | error e =>
              rw [hc] at h
              exact absurd h (by simp)

/-- C1 (code bug): for a container start or die event whose container cannot
be inspected, run() binds container to the bare dict from the except branch;
the dispatched handler then evaluates that dict's name attribute, which
raises AttributeError before touching the index or the file, and the
exception escapes the event loop (run() has no handler around the call), so
processing does NOT continue.  This contradicts the claim that such events
degrade to an empty attribute set, fail only the no-network check, and are
absorbed. -/
theorem notfound_event_raises_attribute_error (r : hostRegistry)
    (domain i : String) (hasOnupdate : Bool) (io : RenderOutcome) :
    processEvent r ⟨"container", "start", i⟩ InspectResult.notFound domain hasOnupdate io
        = (r, [], some (PyErr.AttributeError "name"))
    ∧ processEvent r ⟨"container", "die", i⟩ InspectResult.notFound domain hasOnupdate io
        = (r, [], some (PyErr.AttributeError "name")) := by
  constructor <;> rfl

/-- C2 (amended): after every finite sequence of register and successful
unregister operations from the empty registry in which each operation's
container name agrees with the name stored for its id (no rename between
registration and later events), byId and byName are in lock-step: every byId
record is in byName under the record's name with identical content, and
conversely through the record's id. -/
theorem lockstep_of_consistent_operations (r : hostRegistry)
    (h : ConsistentReach r) : byMapsLockStep r := by
  obtain ⟨h1, h2⟩ := registryInv_of_consistentReach r h
  exact ⟨fun i rec hg => (h1 i rec hg).2, fun n rec hg => (h2 n rec hg).2⟩

/-- Witness for the amended C2 at a concrete one-operation sequence. -/
theorem lockstep_of_consistent_operations_witness :
    byMapsLockStep (hostRegistry.register emptyRegistry cWeb) :=
  lockstep_of_consistent_operations _
    (ConsistentReach.reg ConsistentReach.base
      (by intro rec hg; simp [emptyRegistry, dictGet?] at hg))

/-- C2 counterexample: register web (id c1) and db (id c2), then unregister a
container carrying id c1 but name db (a renamed container).  The operation
sequence succeeds, yet afterwards byId still holds the db record while byName
has no entry under the name db: the maps are not in lock-step, refuting the
unrestricted claim. -/
theorem lockstep_broken_by_renamed_unregister :
    hostRegistry.unregister
        (hostRegistry.register (hostRegistry.register emptyRegistry cWeb) cDb)
        cWebRenamedDb
      = Except.ok brokenRegistry
    ∧ ¬ byMapsLockStep brokenRegistry := by
  constructor
  · rfl
  · intro hls
    have h := hls.1 "c2" recDb (by rfl)
    exact absurd h (by decide)

/-- C3 (amended): rendering into a file whose stripped lines contain the
start marker at or before the end marker deletes exactly the inclusive index
range from the first start marker through the first end marker before
appending the new section, and every line that preceded the old start marker
survives as its Python strip — leading AND trailing whitespace removed, not
merely the trailing-whitespace normalisation the claim states. -/
theorem render_removes_exact_marker_range (rawLines : List String)
    (r : hostRegistry) (domain : String) (s e : Nat)
    (hs : startIdx? (rawLines.map pyStrip) = some s)
    (he : endIdx? (rawLines.map pyStrip) = some e) (hle : s ≤ e) :
    update_hosts_lines r domain rawLines =
      ((rawLines.map pyStrip).take s ++ (rawLines.map pyStrip).drop (e + 1))
        ++ ([_hostfile_start_marker] ++ hostLines r domain ++ [_hostfile_end_marker])
    ∧ (rawLines.map pyStrip).take s = (rawLines.take s).map pyStrip := by
  refine ⟨update_hosts_lines_found r domain rawLines s e hs he hle, ?_⟩
  rw [List.map_take]

/-- Witness for the amended C3 on a concrete five-line file. -/
theorem render_removes_exact_marker_range_witness :
    update_hosts_lines regWeb "docker" sampleSectionRaw =
      ((sampleSectionRaw.map pyStrip).take 1 ++ (sampleSectionRaw.map pyStrip).drop 4)
        ++ ([_hostfile_start_marker] ++ hostLines regWeb "docker" ++ [_hostfile_end_marker])
    ∧ (sampleSectionRaw.map pyStrip).take 1 = (sampleSectionRaw.take 1).map pyStrip :=
  render_removes_exact_marker_range sampleSectionRaw regWeb "docker" 1 3
    (by rfl) (by rfl) (by decide)

/-- C3 counterexample: a prefix line reading two spaces then foo is written
back as foo, while its trailing-whitespace normalisation keeps the leading
spaces; the prefix is therefore not byte-identical modulo trailing-whitespace
normalisation as claimed. -/
theorem render_prefix_not_trailing_normalized :
    update_hosts_lines emptyRegistry "docker"
        (pyReadlines ("  foo\n" ++ _hostfile_start_marker ++ "\n" ++ _hostfile_end_marker))
      = ["foo", _hostfile_start_marker, _hostfile_end_marker]
    ∧ ("foo" : String) ≠ pyRstrip "  foo" := by
  constructor
  · rfl
  · decide

/-- C4 (amended): unregister on a container whose id is present, whose
derived name equals the name stored for that id, and whose stored name is a
byName key (always true of lock-step states) removes the id from byId and the
name from byName; unregister on an absent id leaves both maps unchanged and
raises nothing.  (Without the name agreement the present-id case can raise
KeyError instead: see unregister_renamed_raises_keyerror.) -/
theorem unregister_removes_or_noop :
    (∀ (r : hostRegistry) (c : Container) (rec : ContainerRecord),
       dictGet? r.byid c.id = some rec →
       stripLeadingSlash c.name = rec.name →
       dictContains r.byname rec.name = true →
       r.unregister c
           = Except.ok ⟨dictDelete r.byname rec.name, dictDelete r.byid c.id⟩
         ∧ dictGet? (dictDelete r.byid c.id) c.id = none
         ∧ dictGet? (dictDelete r.byname rec.name) rec.name = none)
    ∧ (∀ (r : hostRegistry) (c : Container),
       dictContains r.byid c.id = false → r.unregister c = Except.ok r) := by
  constructor
  · intro r c rec hget hname hcont
    have h1 : dictContains r.byid c.id = true := dictContains_of_get? _ _ _ hget
    have h2 : dictContains r.byname (stripLeadingSlash c.name) = true := by
      rw [hname]; exact hcont
    refine ⟨?_, dictGet?_delete_self _ _, dictGet?_delete_self _ _⟩
    simp only [hostRegistry.unregister, h1, h2, if_true]
    rw [hname]
  · intro r c h
    simp [hostRegistry.unregister, h]

/-- Witness for the amended C4: remove the only registered container, and a
no-op unregister on the empty registry. -/
theorem unregister_removes_or_noop_witness :
    (hostRegistry.unregister regWeb cWeb
         = Except.ok ⟨dictDelete regWeb.byname recWeb.name, dictDelete regWeb.byid cWeb.id⟩
       ∧ dictGet? (dictDelete regWeb.byid cWeb.id) cWeb.id = none
       ∧ dictGet? (dictDelete regWeb.byname recWeb.name) recWeb.name = none)
    ∧ hostRegistry.unregister emptyRegistry cDb = Except.ok emptyRegistry :=
  ⟨unregister_removes_or_noop.1 regWeb cWeb recWeb (by rfl) (by rfl) (by rfl),
   unregister_removes_or_noop.2 emptyRegistry cDb (by rfl)⟩

/-- C4 counterexample: id c1 is present (registered under the name web), but
the die event carries the container renamed to fresh; instead of removing the
record's prior name from byName, the call raises KeyError. -/
theorem unregister_renamed_raises_keyerror :
    hostRegistry.unregister (hostRegistry.register emptyRegistry cWeb) cWebRenamedFresh
      = Except.error (PyErr.KeyError "fresh") := by
  rfl

/-- C6: when a record is already registered under a name, registering any
container whose derived name is identical leaves the registry unchanged, and
byName at that name still references the first record. -/
theorem duplicate_name_register_noop (r : hostRegistry) (cFirst cSecond : Container)
    (recFirst : ContainerRecord)
    (hreg : dictGet? r.byname (stripLeadingSlash cFirst.name) = some recFirst)
    (hsame : stripLeadingSlash cSecond.name = stripLeadingSlash cFirst.name) :
    r.register cSecond = r
    ∧ dictGet? (r.register cSecond).byname (stripLeadingSlash cFirst.name)
        = some recFirst := by
  have hcont : dictContains r.byname (stripLeadingSlash cSecond.name) = true := by
    rw [hsame]
    exact dictContains_of_get? _ _ _ hreg
  have hr : r.register cSecond = r := by simp [hostRegistry.register, hcont]
  exact ⟨hr, by rw [hr]; exact hreg⟩

/-- Witness for C6: a second web container (slash-prefixed name, different id
and address) bounces off the registered web record. -/
theorem duplicate_name_register_noop_witness :
    hostRegistry.register regWeb cWebDup = regWeb
    ∧ dictGet? (hostRegistry.register regWeb cWebDup).byname
        (stripLeadingSlash cWeb.name) = some recWeb :=
  duplicate_name_register_noop regWeb cWeb cWebDup recWeb (by rfl) (by rfl)

/-- C7: register is a no-op for a container whose network map is absent,
empty, or has only empty-string addresses; consequently, after any successful
operation sequence from the empty registry, every stored record has at least
one addressed network. -/
theorem no_network_register_noop_and_invariant :
    (∀ (r : hostRegistry) (c : Container),
        noAddressedNetworks c = true → r.register c = r)
    ∧ (∀ (ops : List RegistryOp) (r : hostRegistry),
        applyOps emptyRegistry ops = Except.ok r → recordsAddressed r) := by
  constructor
  · intro r c h
    unfold noAddressedNetworks at h
    cases hn : c.networks with
    | none =>
        by_cases h1 : dictContains r.byname (stripLeadingSlash c.name) = true
        · simp [hostRegistry.register, h1]
        · simp [hostRegistry.register, h1, hn]
    | some nws =>
        rw [hn] at h
        have h2 : nws.filter (fun nw => nw.2 != "") = [] := of_decide_eq_true h
        by_cases h1 : dictContains r.byname (stripLeadingSlash c.name) = true
        · simp [hostRegistry.register, h1]
        · simp [hostRegistry.register, h1, hn, h2]
  · intro ops r h
    exact recordsAddressed_applyOps ops emptyRegistry r recordsAddressed_empty h

/-- Witness for C7: an address-less container bounces off the empty registry,
and the registry reached by registering cWeb has only addressed records. -/
theorem no_network_register_noop_and_invariant_witness :
    hostRegistry.register emptyRegistry cNoNet = emptyRegistry
    ∧ recordsAddressed regWeb :=
  ⟨no_network_register_noop_and_invariant.1 emptyRegistry cNoNet (by decide),
   no_network_register_noop_and_invariant.2 [RegistryOp.reg cWeb] regWeb (by rfl)⟩

/-- C5 (amended): a handled start or die event whose container was
successfully inspected, and whose register/unregister step raises nothing,
performs exactly one render — also when the index mutation was a content
no-op — and runs the configured post-update action exactly once, after the
render; when the locked read-modify-write raises, the action is not run and
the failure propagates out of the handler. -/
theorem handled_event_single_render (r : hostRegistry) (c : Container)
    (domain content : String) (hasOn : Bool) :
    (handle_startRun r (ContainerVal.obj c) domain hasOn (RenderOutcome.readOk content)
        = (r.register c,
           RenderAction.renderWrite (update_hosts_write (r.register c) domain content) ::
             (if hasOn then [RenderAction.onupdateRun] else []),
           none)
      ∧ renderCount
          (handle_startRun r (ContainerVal.obj c) domain hasOn
            (RenderOutcome.readOk content)).2.1 = 1
      ∧ onupdateCount
          (handle_startRun r (ContainerVal.obj c) domain hasOn
            (RenderOutcome.readOk content)).2.1 = (if hasOn then 1 else 0))
    ∧ handle_startRun r (ContainerVal.obj c) domain hasOn RenderOutcome.raised
        = (r.register c, [], some PyErr.OSError)
    ∧ (∀ r1, r.unregister c = Except.ok r1 →
        (handle_dieRun r (ContainerVal.obj c) domain hasOn (RenderOutcome.readOk content)
            = (r1, RenderAction.renderWrite (update_hosts_write r1 domain content) ::
                 (if hasOn then [RenderAction.onupdateRun] else []),
               none)
          ∧ renderCount
              (handle_dieRun r (ContainerVal.obj c) domain hasOn
                (RenderOutcome.readOk content)).2.1 = 1)
        ∧ handle_dieRun r (ContainerVal.obj c) domain hasOn RenderOutcome.raised
            = (r1, [], some PyErr.OSError)) := by
  refine ⟨⟨rfl, ?_, ?_⟩, rfl, ?_⟩
  · cases hasOn <;>
      simp [handle_startRun, registerVal, update_hostsRun, renderCount]
  · cases hasOn <;>
      simp [handle_startRun, registerVal, update_hostsRun, onupdateCount]
  · intro r1 h
    refine ⟨⟨?_, ?_⟩, ?_⟩
    · simp [handle_dieRun, unregisterVal, h, update_hostsRun]
    · cases hasOn <;>
        simp [handle_dieRun, unregisterVal, h, update_hostsRun, renderCount]
    · simp [handle_dieRun, unregisterVal, h, update_hostsRun]

/-- Witness for the amended C5: the die event for cWeb on the one-container
registry renders once and reports no error. -/
theorem handled_event_single_render_witness :
    (handle_dieRun regWeb (ContainerVal.obj cWeb) "docker" true (RenderOutcome.readOk "")
        = (emptyRegistry,
           RenderAction.renderWrite (update_hosts_write emptyRegistry "docker" "") ::
             (if true then [RenderAction.onupdateRun] else []),
           none)
      ∧ renderCount
          (handle_dieRun regWeb (ContainerVal.obj cWeb) "docker" true
            (RenderOutcome.readOk "")).2.1 = 1)
    ∧ handle_dieRun regWeb (ContainerVal.obj cWeb) "docker" true RenderOutcome.raised
        = (emptyRegistry, [], some PyErr.OSError) :=
  (handled_event_single_render regWeb cWeb "docker" "" true).2.2 emptyRegistry (by rfl)

/-- C5 counterexample: a start event whose container could not be inspected
is handled (handle_start runs on the bare dict), yet it performs zero
renders: register raises AttributeError before update_hosts is reached, so
the unrestricted claim that every handled start or die event triggers exactly
one render is false. -/
theorem notfound_start_renders_nothing :
    handle_startRun emptyRegistry ContainerVal.emptyDict "docker" true
        (RenderOutcome.readOk "")
      = (emptyRegistry, [], some (PyErr.AttributeError "name"))
    ∧ renderCount
        (handle_startRun emptyRegistry ContainerVal.emptyDict "docker" true
          (RenderOutcome.readOk "")).2.1 = 0 := by
  constructor
  · rfl
  · rfl

/-- C8: registering the same container twice in succession is idempotent on
index content — with no side condition: whichever branch the first call took
(stored, duplicate name, missing Networks key, or no addressed network), the
second call is a content no-op. -/
theorem register_idempotent (r : hostRegistry) (c : Container) :
    (r.register c).register c = r.register c := by
  by_cases h1 : dictContains r.byname (stripLeadingSlash c.name) = true
  · have hr : r.register c = r := by simp [hostRegistry.register, h1]
    rw [hr]
    simp [hostRegistry.register, h1]
  · cases hn : c.networks with
    | none =>
        have hr : r.register c = r := by simp [hostRegistry.register, h1, hn]
        rw [hr]
        simp [hostRegistry.register, h1, hn]
    | some nws =>
        by_cases h2 : nws.filter (fun nw => nw.2 != "") = []
        · have hr : r.register c = r := by simp [hostRegistry.register, h1, hn, h2]
          rw [hr]
          simp [hostRegistry.register, h1, hn, h2]
        · have hreg : r.register c =
              ⟨dictInsert r.byname (stripLeadingSlash c.name) (regRecord c nws),
               dictInsert r.byid c.id (regRecord c nws)⟩ := by
            simp [hostRegistry.register, h1, hn, h2]
          rw [hreg]
          have hcont : dictContains
              (dictInsert r.byname (stripLeadingSlash c.name) (regRecord c nws))
              (stripLeadingSlash c.name) = true := dictContains_insert_self _ _ _
          simp [hostRegistry.register, hcont]

/-- C9 (amended): when the markers are missing or malformed — no start
marker, no end marker, or first end marker strictly before first start
marker — the render raises nothing, deletes no line, and appends a fresh
well-formed section after the prior lines, which are otherwise kept in place
modulo the per-line whitespace strip (see
malformed_marker_strips_prior_content for why the strip caveat is needed). -/
theorem malformed_markers_append_fresh_section (rawLines : List String)
    (r : hostRegistry) (domain : String)
    (h : startIdx? (rawLines.map pyStrip) = none ∨
         endIdx? (rawLines.map pyStrip) = none ∨
         ∀ s e, startIdx? (rawLines.map pyStrip) = some s →
           endIdx? (rawLines.map pyStrip) = some e → e < s) :
    update_hosts_lines r domain rawLines =
      rawLines.map pyStrip
        ++ ([_hostfile_start_marker] ++ hostLines r domain ++ [_hostfile_end_marker]) := by
  unfold update_hosts_lines
  cases hs : startIdx? (rawLines.map pyStrip) with
  | none =>
      cases he : endIdx? (rawLines.map pyStrip) with
      | none => rfl
      | some e => rfl
  | some s =>
      cases he : endIdx? (rawLines.map pyStrip) with
      | none => rfl
      | some e =>
          rcases h with h | h | h
          · rw [hs] at h
            cases h
          · rw [he] at h
            cases h
          · have hlt := h s e hs he
            simp [pySliceDel, Nat.not_lt.mpr (Nat.succ_le_of_lt hlt)]

/-- Witness for the amended C9 on a file holding only a start marker. -/
theorem malformed_markers_append_fresh_section_witness :
    update_hosts_lines emptyRegistry "docker" sampleStartOnlyRaw =
      sampleStartOnlyRaw.map pyStrip
        ++ ([_hostfile_start_marker] ++ hostLines emptyRegistry "docker"
              ++ [_hostfile_end_marker]) :=
  malformed_markers_append_fresh_section sampleStartOnlyRaw emptyRegistry "docker"
    (Or.inr (Or.inl (by rfl)))

/-- C9 counterexample: with only a start marker present, the line holding two
spaces and the word bar is written back as bar — the prior content is
disturbed (beyond even trailing-whitespace normalisation), contradicting the
claim that it is untouched. -/
theorem malformed_marker_strips_prior_content :
    update_hosts_lines emptyRegistry "docker"
        (pyReadlines ("  bar\n" ++ _hostfile_start_marker))
      = ["bar", _hostfile_start_marker, _hostfile_start_marker, _hostfile_end_marker]
    ∧ ("bar" : String) ≠ pyRstrip "  bar" := by
  constructor
  · rfl
  · decide

/-- C10 (amended): after a render over a file with a well-formed prior
section, the managed section is the final block — the stripped lines that
followed the old section are kept (as their Python strips, not byte-for-byte:
see trailing_lines_not_byte_preserved) and sit immediately before the new
section — and the written content is the lines joined by single newlines, so
the file ends at the end marker with no trailing newline. -/
theorem section_final_block_and_newline_join (rawLines : List String)
    (r : hostRegistry) (domain content : String) (s e : Nat)
    (hs : startIdx? (rawLines.map pyStrip) = some s)
    (he : endIdx? (rawLines.map pyStrip) = some e) (hle : s ≤ e) :
    update_hosts_lines r domain rawLines
      = ((rawLines.map pyStrip).take s ++ (rawLines.map pyStrip).drop (e + 1))
          ++ ([_hostfile_start_marker] ++ hostLines r domain ++ [_hostfile_end_marker])
    ∧ (update_hosts_lines r domain rawLines).getLast? = some _hostfile_end_marker
    ∧ update_hosts_write r domain content
        = pyJoinNl (update_hosts_lines r domain (pyReadlines content)) := by
  have h1 := update_hosts_lines_found r domain rawLines s e hs he hle
  refine ⟨h1, ?_, rfl⟩
  rw [h1]
  rw [show ((rawLines.map pyStrip).take s ++ (rawLines.map pyStrip).drop (e + 1))
        ++ ([_hostfile_start_marker] ++ hostLines r domain ++ [_hostfile_end_marker])
      = (((rawLines.map pyStrip).take s ++ (rawLines.map pyStrip).drop (e + 1))
          ++ ([_hostfile_start_marker] ++ hostLines r domain)) ++ [_hostfile_end_marker] by
    simp]
  exact List.getLast?_concat _

/-- Witness for the amended C10, on a file whose prior section is followed by
an epilogue line; the final conjunct exhibits the exact bytes written for a
one-line file, ending at the end marker without a newline. -/
theorem section_final_block_and_newline_join_witness :
    (update_hosts_lines regWeb "docker" sampleTailRaw
      = ((sampleTailRaw.map pyStrip).take 0 ++ (sampleTailRaw.map pyStrip).drop 2)
          ++ ([_hostfile_start_marker] ++ hostLines regWeb "docker" ++ [_hostfile_end_marker])
    ∧ (update_hosts_lines regWeb "docker" sampleTailRaw).getLast?
        = some _hostfile_end_marker
    ∧ update_hosts_write regWeb "docker" "x"
        = pyJoinNl (update_hosts_lines regWeb "docker" (pyReadlines "x")))
    ∧ update_hosts_write regWeb "docker" "x"
        = "x\n" ++ _hostfile_start_marker ++ "\n10.0.0.2 web.app.docker\n"
            ++ _hostfile_end_marker :=
  ⟨section_final_block_and_newline_join sampleTailRaw regWeb "docker" "x" 0 1
      (by rfl) (by rfl) (by decide),
   by rfl⟩

/-- C10 counterexample: the line holding two spaces and the word tail, which
followed the old managed section, is relocated before the new section but
written back as tail — relocated, yet not preserved byte-for-byte. -/
theorem trailing_lines_not_byte_preserved :
    update_hosts_lines emptyRegistry "docker"
        (pyReadlines (_hostfile_start_marker ++ "\n" ++ _hostfile_end_marker ++ "\n  tail"))
      = ["tail", _hostfile_start_marker, _hostfile_end_marker]
    ∧ ("tail" : String) ≠ "  tail" := by
  constructor
  · rfl
  · decide
